import Mathlib

/-!
Shallow embedding of the two scripts of the repository, `scan_codebase.py`
and `test_gemini.py`.  Remote-service effects (per-file upload, content
generation) and the output-file write are modelled as oracle functions
returning `Except String _`; the `os.walk` enumeration is a parameter,
since its order is filesystem-dependent.  A run produces a trace of
observable events, a termination outcome, and the final content of the
output file `README.md` (given its prior content).
-/

namespace ElevenCentral

/-- Parts of a generation request.  `scan_codebase.py` line 41 builds the
list `[prompt] + uploaded_files`: one text part followed by opaque
uploaded-file handles; `test_gemini.py` line 10 sends a single string,
i.e. one text part. -/
inductive Part (H : Type) where
  | text (s : String)
  | file (h : H)
  deriving DecidableEq, Repr

/-- Observable events of one run: an upload attempt for the file named
`file` inside directory `root`, a line printed to standard output, a
generation request with its parts, an attempt to open-and-write the named
output file, and the bare `exit()` call. -/
inductive Event (H : Type) where
  | uploadAttempt (root : String) (file : String)
  | printLine (s : String)
  | generateCall (parts : List (Part H))
  | writeAttempt (name : String) (content : String)
  | exitCall
  deriving DecidableEq, Repr

/-- How a run terminates: falling off the end of the script, the bare
`exit()` call on the no-uploads path, or an uncaught exception carrying
message `e`. -/
inductive Outcome where
  | normal
  | earlyExit
  | uncaught (e : String)
  deriving DecidableEq, Repr

/-- Process exit status for each outcome, per Python semantics: a script
that runs to completion exits with status 0, and the builtin `exit()`
called with no argument raises `SystemExit(None)`, which the interpreter
also turns into exit status 0; an uncaught exception yields the
interpreter's non-zero status (1). -/
def exitCode : Outcome → Nat
  | Outcome.normal => 0
  | Outcome.earlyExit => 0
  | Outcome.uncaught _ => 1

/-- One directory visited by `os.walk(directory)`: the directory's path
`root` and the list `files` of regular-file names directly inside it,
in the order the walk yields them. -/
structure WalkEntry where
  root : String
  files : List String
  deriving DecidableEq, Repr

/-- Python's case-sensitive `file.endswith(ext)` on a single suffix. -/
def endsWithExt (file ext : String) : Bool :=
  ext.data.isSuffixOf file.data

/-- The extension allow-list tuple of `scan_codebase.py` line 15. -/
def allowedExts : List String :=
  [".py", ".js", ".ts", ".jsx", ".tsx", ".css", ".html"]

/-- The guard `file.endswith(('.py', '.js', '.ts', '.jsx', '.tsx',
'.css', '.html'))` of `scan_codebase.py` line 15: Python's `endswith` on
a tuple is true iff some listed suffix matches, case-sensitively. -/
def matchesExt (file : String) : Bool :=
  allowedExts.any fun ext => endsWithExt file ext

/-- `os.path.join(root, file)` for a root not ending in a separator. -/
def joinPath (root file : String) : String :=
  root ++ "/" ++ file

/-- The body of the inner loop of `upload_codebase_files`
(`scan_codebase.py` lines 14-22) for one visited file: if the name
matches the allow-list, attempt the upload; on success collect the
handle and print the success line, on failure print the failure line
and collect nothing.  Returns the handles collected and the events
emitted at this visit. -/
def processFile {H : Type} (upload : String → Except String H)
    (root file : String) : List H × List (Event H) :=
  if matchesExt file then
    match upload (joinPath root file) with
    | Except.ok uploaded_file =>
        ([uploaded_file],
         [Event.uploadAttempt root file,
          Event.printLine ("Uploaded: " ++ joinPath root file)])
    | Except.error e =>
        ([],
         [Event.uploadAttempt root file,
          Event.printLine ("Failed to upload " ++ joinPath root file ++ ": " ++ e)])
  else ([], [])

/-- The inner `for file in files` loop of `upload_codebase_files`,
accumulating handles and events in visit order. -/
def processFiles {H : Type} (upload : String → Except String H)
    (root : String) : List String → List H × List (Event H)
  | [] => ([], [])
  | f :: fs =>
      ((processFile upload root f).1 ++ (processFiles upload root fs).1,
       (processFile upload root f).2 ++ (processFiles upload root fs).2)

/-- `upload_codebase_files(directory)` of `scan_codebase.py` lines 11-23:
the outer `for root, _, files in os.walk(directory)` loop over the walk
enumeration, returning the accumulated `file_objects` list together with
the trace of events emitted during the walk. -/
def upload_codebase_files {H : Type} (upload : String → Except String H) :
    List WalkEntry → List H × List (Event H)
  | [] => ([], [])
  | entry :: rest =>
      ((processFiles upload entry.root entry.files).1 ++
        (upload_codebase_files upload rest).1,
       (processFiles upload entry.root entry.files).2 ++
        (upload_codebase_files upload rest).2)

/-- The fixed instructional prompt of `scan_codebase.py` lines 36-38
(a triple-quoted string, hence the leading and trailing newline). -/
def prompt : String :=
  "\nAnalyze the following uploaded files to identify their structure, key functions, classes, and dependencies. Then, generate documentation in Markdown format, including a README, API documentation, and inline comments where necessary. Ensure the documentation is clear, concise, and follows best practices for [specify your tech stack, e.g., Python, JavaScript, NextJS].\n"

/-- The diagnostic printed on the no-uploads path (`scan_codebase.py`
line 32). -/
def noFilesMsg : String :=
  "No files were uploaded. Please check file extensions or directory."

/-- The observable result of one run of `scan_codebase.py`: the event
trace, the termination outcome, and the final content of `README.md`
in the current directory, given its content before the run (`none` if
the file did not exist). -/
structure RunResult (H : Type) where
  trace : List (Event H)
  outcome : Outcome
  readme : Option String
  deriving DecidableEq, Repr

/-- The top-level procedure of `scan_codebase.py` lines 26-46: run the
walk-and-upload phase; if the accumulated list is empty, print the
diagnostic and `exit()`; otherwise issue the single generation request
with `[prompt] + uploaded_files`, print the response text, and write it
to `README.md` (mode "w", which truncates before writing, so a failing
write leaves the file truncated).  A generation failure or a write
failure is not caught and becomes an uncaught exception. -/
def scan_codebase {H : Type} (upload : String → Except String H)
    (generate : List (Part H) → Except String String)
    (write : String → String → Except String Unit)
    (walk : List WalkEntry) (prior : Option String) : RunResult H :=
  if (upload_codebase_files upload walk).1.isEmpty then
    { trace := (upload_codebase_files upload walk).2 ++
        [Event.printLine noFilesMsg, Event.exitCall],
      outcome := Outcome.earlyExit, readme := prior }
  else
    match generate (Part.text prompt ::
        (upload_codebase_files upload walk).1.map Part.file) with
    | Except.error e =>
        { trace := (upload_codebase_files upload walk).2 ++
            [Event.generateCall (Part.text prompt ::
              (upload_codebase_files upload walk).1.map Part.file)],
          outcome := Outcome.uncaught e, readme := prior }
    | Except.ok t =>
        match write "README.md" t with
        | Except.ok _ =>
            { trace := (upload_codebase_files upload walk).2 ++
                [Event.generateCall (Part.text prompt ::
                  (upload_codebase_files upload walk).1.map Part.file),
                 Event.printLine t, Event.writeAttempt "README.md" t],
              outcome := Outcome.normal, readme := some t }
        | Except.error e =>
            { trace := (upload_codebase_files upload walk).2 ++
                [Event.generateCall (Part.text prompt ::
                  (upload_codebase_files upload walk).1.map Part.file),
                 Event.printLine t, Event.writeAttempt "README.md" t],
              outcome := Outcome.uncaught e, readme := some "" }

/-- The whole of `test_gemini.py`: one generation request with the
literal prompt, then print the response text; a generation failure is
uncaught.  Returns the event trace and the outcome. -/
def test_gemini {H : Type}
    (generate : List (Part H) → Except String String) :
    List (Event H) × Outcome :=
  match generate [Part.text "What is the capital of France?"] with
  | Except.ok t =>
      ([Event.generateCall [Part.text "What is the capital of France?"],
        Event.printLine t], Outcome.normal)
  | Except.error e =>
      ([Event.generateCall [Part.text "What is the capital of France?"]],
       Outcome.uncaught e)

/-- Spec-side description of the walk: the `(root, file)` visits whose
file name matches the extension allow-list, in visit order. -/
def matchingVisits : List WalkEntry → List (String × String)
  | [] => []
  | entry :: rest =>
      ((entry.files.filter matchesExt).map fun f => (entry.root, f)) ++
        matchingVisits rest

/-- Spec-side description of the accumulated handles: the handles of the
successful uploads among the matching visits, in visit order. -/
def successfulHandles {H : Type} (upload : String → Except String H)
    (walk : List WalkEntry) : List H :=
  (matchingVisits walk).filterMap fun p => (upload (joinPath p.1 p.2)).toOption

/-- The context the single generation call carries, per the spec: the
fixed prompt followed by the handles of the successful uploads in visit
order. -/
def contextParts {H : Type} (upload : String → Except String H)
    (walk : List WalkEntry) : List (Part H) :=
  Part.text prompt :: (successfulHandles upload walk).map Part.file

/-- The upload attempts recorded in a trace, in order. -/
def uploadAttempts {H : Type} (trace : List (Event H)) :
    List (String × String) :=
  trace.filterMap fun ev =>
    match ev with
    | Event.uploadAttempt r f => some (r, f)
    | _ => none

/-- The lines printed in a trace, in order. -/
def printLines {H : Type} (trace : List (Event H)) : List String :=
  trace.filterMap fun ev =>
    match ev with
    | Event.printLine s => some s
    | _ => none

/-- The generation calls in a trace, in order, each with its parts. -/
def generateCalls {H : Type} (trace : List (Event H)) :
    List (List (Part H)) :=
  trace.filterMap fun ev =>
    match ev with
    | Event.generateCall ps => some ps
    | _ => none

/-- The output-file write attempts in a trace, in order. -/
def writeAttempts {H : Type} (trace : List (Event H)) :
    List (String × String) :=
  trace.filterMap fun ev =>
    match ev with
    | Event.writeAttempt n c => some (n, c)
    | _ => none

theorem uploadAttempts_append {H : Type} (t₁ t₂ : List (Event H)) :
    uploadAttempts (t₁ ++ t₂) = uploadAttempts t₁ ++ uploadAttempts t₂ := by
  simp [uploadAttempts]

theorem generateCalls_append {H : Type} (t₁ t₂ : List (Event H)) :
    generateCalls (t₁ ++ t₂) = generateCalls t₁ ++ generateCalls t₂ := by
  simp [generateCalls]

theorem writeAttempts_append {H : Type} (t₁ t₂ : List (Event H)) :
    writeAttempts (t₁ ++ t₂) = writeAttempts t₁ ++ writeAttempts t₂ := by
  simp [writeAttempts]

theorem printLines_append {H : Type} (t₁ t₂ : List (Event H)) :
    printLines (t₁ ++ t₂) = printLines t₁ ++ printLines t₂ := by
  simp [printLines]

theorem processFile_fst {H : Type} (upload : String → Except String H)
    (root f : String) :
    (processFile upload root f).1 =
      if matchesExt f then (upload (joinPath root f)).toOption.toList
      else [] := by
  unfold processFile
  cases hm : matchesExt f
  · simp
  · cases hu : upload (joinPath root f) <;> simp [Except.toOption]

theorem processFiles_fst {H : Type} (upload : String → Except String H)
    (root : String) (files : List String) :
    (processFiles upload root files).1 =
      ((files.filter matchesExt).map fun f => (root, f)).filterMap
        fun p => (upload (joinPath p.1 p.2)).toOption := by
  induction files with
  | nil => simp [processFiles]
  | cons f fs ih =>
    cases hm : matchesExt f
    · simp [processFiles, processFile_fst, hm, ih]
    · cases hu : upload (joinPath root f) <;>
        simp [processFiles, processFile_fst, hm, hu, ih, Except.toOption,
          List.filterMap_cons, Function.comp]

theorem upload_codebase_files_fst {H : Type}
    (upload : String → Except String H) (walk : List WalkEntry) :
    (upload_codebase_files upload walk).1 = successfulHandles upload walk := by
  induction walk with
  | nil => simp [upload_codebase_files, successfulHandles, matchingVisits]
  | cons entry rest ih =>
    simp [upload_codebase_files, successfulHandles, matchingVisits,
      processFiles_fst, List.filterMap_append]
    simpa [successfulHandles] using ih

theorem uploadAttempts_processFile {H : Type}
    (upload : String → Except String H) (root f : String) :
    uploadAttempts (processFile upload root f).2 =
      if matchesExt f then [(root, f)] else [] := by
  unfold processFile
  cases hm : matchesExt f
  · simp [uploadAttempts]
  · cases hu : upload (joinPath root f) <;> simp [uploadAttempts]

theorem uploadAttempts_processFiles {H : Type}
    (upload : String → Except String H) (root : String)
    (files : List String) :
    uploadAttempts (processFiles upload root files).2 =
      (files.filter matchesExt).map fun f => (root, f) := by
  induction files with
  | nil => simp [processFiles, uploadAttempts]
  | cons f fs ih =>
    cases hm : matchesExt f <;>
      simp [processFiles, uploadAttempts_append, uploadAttempts_processFile,
        hm, ih]

theorem uploadAttempts_walk {H : Type}
    (upload : String → Except String H) (walk : List WalkEntry) :
    uploadAttempts (upload_codebase_files upload walk).2 =
      matchingVisits walk := by
  induction walk with
  | nil => simp [upload_codebase_files, uploadAttempts, matchingVisits]
  | cons entry rest ih =>
    simp [upload_codebase_files, uploadAttempts_append,
      uploadAttempts_processFiles, matchingVisits, ih]

theorem generateCalls_processFile {H : Type}
    (upload : String → Except String H) (root f : String) :
    generateCalls (processFile upload root f).2 = [] := by
  unfold processFile
  cases hm : matchesExt f
  · simp [generateCalls]
  · cases hu : upload (joinPath root f) <;> simp [generateCalls]

theorem generateCalls_walk {H : Type}
    (upload : String → Except String H) (walk : List WalkEntry) :
    generateCalls (upload_codebase_files upload walk).2 = [] := by
  induction walk with
  | nil => simp [upload_codebase_files, generateCalls]
  | cons entry rest ih =>
    have inner : ∀ files : List String,
        generateCalls (processFiles upload entry.root files).2 = [] := by
      intro files
      induction files with
      | nil => simp [processFiles, generateCalls]
      | cons f fs ihf =>
        simp [processFiles, generateCalls_append, generateCalls_processFile,
          ihf]
    simp [upload_codebase_files, generateCalls_append, inner, ih]

theorem writeAttempts_processFile {H : Type}
    (upload : String → Except String H) (root f : String) :
    writeAttempts (processFile upload root f).2 = [] := by
  unfold processFile
  cases hm : matchesExt f
  · simp [writeAttempts]
  · cases hu : upload (joinPath root f) <;> simp [writeAttempts]

theorem writeAttempts_walk {H : Type}
    (upload : String → Except String H) (walk : List WalkEntry) :
    writeAttempts (upload_codebase_files upload walk).2 = [] := by
  induction walk with
  | nil => simp [upload_codebase_files, writeAttempts]
  | cons entry rest ih =>
    have inner : ∀ files : List String,
        writeAttempts (processFiles upload entry.root files).2 = [] := by
      intro files
      induction files with
      | nil => simp [processFiles, writeAttempts]
      | cons f fs ihf =>
        simp [processFiles, writeAttempts_append, writeAttempts_processFile,
          ihf]
    simp [upload_codebase_files, writeAttempts_append, inner, ih]

theorem isEmpty_false_of_handles {H : Type}
    (upload : String → Except String H) (walk : List WalkEntry)
    (h : successfulHandles upload walk ≠ []) :
    (upload_codebase_files upload walk).1.isEmpty = false := by
  cases hl : successfulHandles upload walk with
  | nil => exact absurd hl h
  | cons a l => rw [upload_codebase_files_fst, hl]; rfl

theorem isEmpty_true_of_handles {H : Type}
    (upload : String → Except String H) (walk : List WalkEntry)
    (h : successfulHandles upload walk = []) :
    (upload_codebase_files upload walk).1.isEmpty = true := by
  rw [upload_codebase_files_fst, h]; rfl

theorem contextParts_eq {H : Type} (upload : String → Except String H)
    (walk : List WalkEntry) :
    Part.text prompt :: (successfulHandles upload walk).map Part.file =
      contextParts upload walk := rfl

theorem uploadAttempts_run {H : Type} (upload : String → Except String H)
    (generate : List (Part H) → Except String String)
    (write : String → String → Except String Unit)
    (walk : List WalkEntry) (prior : Option String) :
    uploadAttempts (scan_codebase upload generate write walk prior).trace =
      matchingVisits walk := by
  unfold scan_codebase
  split
  · rw [uploadAttempts_append, uploadAttempts_walk]
    simp [uploadAttempts]
  · split
    · rw [uploadAttempts_append, uploadAttempts_walk]
      simp [uploadAttempts]
    · split <;>
        (rw [uploadAttempts_append, uploadAttempts_walk]
         simp [uploadAttempts])

theorem mem_run_of_mem_walk {H : Type} (upload : String → Except String H)
    (generate : List (Part H) → Except String String)
    (write : String → String → Except String Unit)
    (walk : List WalkEntry) (prior : Option String) (ev : Event H)
    (hev : ev ∈ (upload_codebase_files upload walk).2) :
    ev ∈ (scan_codebase upload generate write walk prior).trace := by
  unfold scan_codebase
  split
  · exact List.mem_append_left _ hev
  · split
    · exact List.mem_append_left _ hev
    · split <;> exact List.mem_append_left _ hev

theorem matchesExt_of_mem_matchingVisits (walk : List WalkEntry)
    (p : String × String) (hp : p ∈ matchingVisits walk) :
    matchesExt p.2 = true := by
  induction walk with
  | nil => simp [matchingVisits] at hp
  | cons entry rest ih =>
    rw [matchingVisits] at hp
    rcases List.mem_append.mp hp with hl | hr
    · rcases List.mem_map.mp hl with ⟨f, hf, rfl⟩
      exact (List.mem_filter.mp hf).2
    · exact ih hr

theorem failPrint_mem_files {H : Type} (upload : String → Except String H)
    (root : String) (files : List String) (f e : String)
    (hf : f ∈ files) (hm : matchesExt f = true)
    (herr : upload (joinPath root f) = Except.error e) :
    Event.printLine ("Failed to upload " ++ joinPath root f ++ ": " ++ e)
      ∈ (processFiles upload root files).2 := by
  induction files with
  | nil => cases hf
  | cons g gs ih =>
    rcases List.mem_cons.mp hf with rfl | hmem
    · apply List.mem_append_left
      simp [processFile, hm, herr]
    · exact List.mem_append_right _ (ih hmem)

theorem failPrint_mem_walk {H : Type} (upload : String → Except String H)
    (walk : List WalkEntry) (entry : WalkEntry) (f e : String)
    (hentry : entry ∈ walk) (hf : f ∈ entry.files) (hm : matchesExt f = true)
    (herr : upload (joinPath entry.root f) = Except.error e) :
    Event.printLine ("Failed to upload " ++ joinPath entry.root f ++ ": " ++ e)
      ∈ (upload_codebase_files upload walk).2 := by
  induction walk with
  | nil => cases hentry
  | cons ent rest ih =>
    rcases List.mem_cons.mp hentry with rfl | hmem
    · exact List.mem_append_left _
        (failPrint_mem_files upload entry.root entry.files f e hf hm herr)
    · exact List.mem_append_right _ (ih hmem)

/-- Claim C1: in every run of `scan_codebase.py` in which at least one
upload succeeds, exactly one generation call is issued, and its context
is exactly the fixed prompt followed by the handles of the successful
uploads — no handle of a failed upload, none missing, none duplicated —
in the order the corresponding files were visited by the walk. -/
theorem C1_single_generation_with_successful_handles {H : Type}
    (upload : String → Except String H)
    (generate : List (Part H) → Except String String)
    (write : String → String → Except String Unit)
    (walk : List WalkEntry) (prior : Option String)
    (h : successfulHandles upload walk ≠ []) :
    generateCalls (scan_codebase upload generate write walk prior).trace =
      [contextParts upload walk] := by
  have hne := isEmpty_false_of_handles upload walk h
  unfold scan_codebase
  rw [hne, upload_codebase_files_fst, contextParts_eq]
  simp only [Bool.false_eq_true, if_false]
  split
  · rw [generateCalls_append, generateCalls_walk]
    simp [generateCalls]
  · split <;>
      (rw [generateCalls_append, generateCalls_walk]
       simp [generateCalls])

/-- Claim C2: in every run of `scan_codebase.py` in which zero uploads
succeed, no generation call is issued, no write of the output file is
attempted, `README.md` keeps its prior content, the diagnostic line is
printed, and the run terminates early via `exit()`. -/
theorem C2_no_success_no_generation_no_output {H : Type}
    (upload : String → Except String H)
    (generate : List (Part H) → Except String String)
    (write : String → String → Except String Unit)
    (walk : List WalkEntry) (prior : Option String)
    (h : successfulHandles upload walk = []) :
    generateCalls (scan_codebase upload generate write walk prior).trace = [] ∧
    writeAttempts (scan_codebase upload generate write walk prior).trace = [] ∧
    (scan_codebase upload generate write walk prior).readme = prior ∧
    Event.printLine noFilesMsg ∈
      (scan_codebase upload generate write walk prior).trace ∧
    (scan_codebase upload generate write walk prior).outcome =
      Outcome.earlyExit := by
  have hemp := isEmpty_true_of_handles upload walk h
  unfold scan_codebase
  rw [hemp]
  refine ⟨?_, ?_, by simp, by simp, by simp⟩
  · rw [if_pos rfl]
    rw [generateCalls_append, generateCalls_walk]
    simp [generateCalls]
  · rw [if_pos rfl]
    rw [writeAttempts_append, writeAttempts_walk]
    simp [writeAttempts]

/-- Claim C3: for every walk enumeration, the run makes exactly the
upload attempts corresponding to the allow-listed files, in visit order
(hence exactly N attempts when the tree holds N allow-listed files),
and makes no upload attempt for any visited file whose name does not
match the allow-list. -/
theorem C3_exactly_matching_files_attempted {H : Type}
    (upload : String → Except String H)
    (generate : List (Part H) → Except String String)
    (write : String → String → Except String Unit)
    (walk : List WalkEntry) (prior : Option String) :
    uploadAttempts (scan_codebase upload generate write walk prior).trace =
      matchingVisits walk ∧
    (uploadAttempts
        (scan_codebase upload generate write walk prior).trace).length =
      (matchingVisits walk).length ∧
    ∀ entry ∈ walk, ∀ f ∈ entry.files, matchesExt f = false →
      (entry.root, f) ∉
        uploadAttempts (scan_codebase upload generate write walk prior).trace := by
  have hA := uploadAttempts_run upload generate write walk prior
  refine ⟨hA, by rw [hA], ?_⟩
  intro entry _ f _ hm hmem
  rw [hA] at hmem
  have := matchesExt_of_mem_matchingVisits walk (entry.root, f) hmem
  rw [hm] at this
  cases this

/-- Claim C4: every individual upload failure is caught: the line
`Failed to upload <path>: <error>` is printed, the walk continues (every
allow-listed visit is still attempted), and the failed file contributes
no handle — the accumulated list is exactly the successful handles. -/
theorem C4_upload_failure_logged_and_skipped {H : Type}
    (upload : String → Except String H)
    (generate : List (Part H) → Except String String)
    (write : String → String → Except String Unit)
    (walk : List WalkEntry) (prior : Option String)
    (entry : WalkEntry) (f e : String)
    (hentry : entry ∈ walk) (hf : f ∈ entry.files)
    (hm : matchesExt f = true)
    (herr : upload (joinPath entry.root f) = Except.error e) :
    Event.printLine ("Failed to upload " ++ joinPath entry.root f ++ ": " ++ e)
      ∈ (scan_codebase upload generate write walk prior).trace ∧
    uploadAttempts (scan_codebase upload generate write walk prior).trace =
      matchingVisits walk ∧
    (upload_codebase_files upload walk).1 = successfulHandles upload walk ∧
    (upload (joinPath entry.root f)).toOption = none := by
  refine ⟨?_, uploadAttempts_run upload generate write walk prior,
    upload_codebase_files_fst upload walk, by rw [herr]; rfl⟩
  exact mem_run_of_mem_walk upload generate write walk prior _
    (failPrint_mem_walk upload walk entry f e hentry hf hm herr)

/-- Claim C5: for every successful run (at least one upload succeeded,
the generation call returned text `t`, and the write succeeded) and
every prior content of `README.md`, the file's content after the run is
exactly `t`: the prior content is completely replaced. -/
theorem C5_output_completely_overwritten {H : Type}
    (upload : String → Except String H)
    (generate : List (Part H) → Except String String)
    (write : String → String → Except String Unit)
    (walk : List WalkEntry) (t : String)
    (hne : successfulHandles upload walk ≠ [])
    (hgen : generate (contextParts upload walk) = Except.ok t)
    (hwr : write "README.md" t = Except.ok ()) :
    ∀ prior : Option String,
      (scan_codebase upload generate write walk prior).readme = some t := by
  intro prior
  have hempty := isEmpty_false_of_handles upload walk hne
  unfold scan_codebase
  rw [hempty, upload_codebase_files_fst, contextParts_eq, hgen]
  simp [hwr]

/-- Claim C6: every run of `test_gemini.py` issues exactly one
generation request, whose sole part is the literal prompt
`What is the capital of France?`, and whenever a response text `t` is
received, the lines printed are exactly `[t]` — nothing more. -/
theorem C6_connectivity_check_single_request {H : Type}
    (generate : List (Part H) → Except String String) :
    generateCalls (test_gemini generate).1 =
      [[Part.text "What is the capital of France?"]] ∧
    ∀ t : String,
      generate [Part.text "What is the capital of France?"] = Except.ok t →
      printLines (test_gemini generate).1 = [t] := by
  constructor
  · unfold test_gemini
    cases hg : generate [Part.text "What is the capital of France?"] <;>
      simp [generateCalls]
  · intro t ht
    unfold test_gemini
    rw [ht]
    simp [printLines]

/-- Claim C7: in every run of `scan_codebase.py` that reaches the
generation phase, a failure of the generation call or of the output-file
write is not caught: the run ends with that exact uncaught error, the
generation call was issued exactly once (no retry), and the output file
is written at most once (not at all when generation fails, exactly once
when the write itself fails). -/
theorem C7_generation_and_write_failures_uncaught {H : Type}
    (upload : String → Except String H)
    (generate : List (Part H) → Except String String)
    (write : String → String → Except String Unit)
    (walk : List WalkEntry) (prior : Option String)
    (hne : successfulHandles upload walk ≠ []) :
    (∀ e : String, generate (contextParts upload walk) = Except.error e →
      (scan_codebase upload generate write walk prior).outcome =
        Outcome.uncaught e ∧
      generateCalls (scan_codebase upload generate write walk prior).trace =
        [contextParts upload walk] ∧
      writeAttempts (scan_codebase upload generate write walk prior).trace =
        []) ∧
    (∀ t e : String, generate (contextParts upload walk) = Except.ok t →
      write "README.md" t = Except.error e →
      (scan_codebase upload generate write walk prior).outcome =
        Outcome.uncaught e ∧
      generateCalls (scan_codebase upload generate write walk prior).trace =
        [contextParts upload walk] ∧
      writeAttempts (scan_codebase upload generate write walk prior).trace =
        [("README.md", t)]) := by
  have hempty := isEmpty_false_of_handles upload walk hne
  constructor
  · intro e hg
    unfold scan_codebase
    rw [hempty, upload_codebase_files_fst, contextParts_eq, hg]
    refine ⟨by simp, ?_, ?_⟩
    · simp only [Bool.false_eq_true, if_false]
      rw [generateCalls_append, generateCalls_walk]
      simp [generateCalls]
    · simp only [Bool.false_eq_true, if_false]
      rw [writeAttempts_append, writeAttempts_walk]
      simp [writeAttempts]
  · intro t e hg hw
    unfold scan_codebase
    rw [hempty, upload_codebase_files_fst, contextParts_eq, hg]
    simp only [Bool.false_eq_true, if_false]
    refine ⟨by simp [hw], ?_, ?_⟩
    · simp only [hw]
      rw [generateCalls_append, generateCalls_walk]
      simp [generateCalls]
    · simp only [hw]
      rw [writeAttempts_append, writeAttempts_walk]
      simp [writeAttempts]

/-- Claim C8: in every run of `scan_codebase.py` in which zero uploads
succeed, the run terminates through the bare `exit()` call, whose exit
status is 0 — the same status as a run that completes normally, so the
two outcomes are indistinguishable by exit code. -/
theorem C8_early_exit_status_zero {H : Type}
    (upload : String → Except String H)
    (generate : List (Part H) → Except String String)
    (write : String → String → Except String Unit)
    (walk : List WalkEntry) (prior : Option String)
    (h : successfulHandles upload walk = []) :
    (scan_codebase upload generate write walk prior).outcome =
      Outcome.earlyExit ∧
    Event.exitCall ∈ (scan_codebase upload generate write walk prior).trace ∧
    exitCode (scan_codebase upload generate write walk prior).outcome = 0 ∧
    exitCode Outcome.normal = 0 := by
  have hemp := isEmpty_true_of_handles upload walk h
  unfold scan_codebase
  rw [hemp]
  refine ⟨by simp, ?_, by simp [exitCode], rfl⟩
  rw [if_pos rfl]
  simp

/-- Claim C9: the fixed output filename `README.md` does not match the
extension allow-list, so a document left by a previous run is never
itself the subject of an upload attempt in any later run. -/
theorem C9_readme_never_uploaded :
    matchesExt "README.md" = false ∧
    ∀ (H : Type) (upload : String → Except String H)
      (generate : List (Part H) → Except String String)
      (write : String → String → Except String Unit)
      (walk : List WalkEntry) (prior : Option String) (r : String),
      (r, "README.md") ∉
        uploadAttempts (scan_codebase upload generate write walk prior).trace := by
  refine ⟨by decide, ?_⟩
  intro H upload generate write walk prior r hmem
  rw [uploadAttempts_run] at hmem
  have h2 : matchesExt "README.md" = true :=
    matchesExt_of_mem_matchingVisits walk (r, "README.md") hmem
  exact absurd h2 (by decide)

/-- Claim C10: the extension filter is case-sensitive: `MAIN.PY` and
`index.HTML` do not match while their lowercase forms do, and in
general no visited file whose name fails the (case-sensitive) filter is
ever the subject of an upload attempt. -/
theorem C10_filter_case_sensitive :
    matchesExt "MAIN.PY" = false ∧
    matchesExt "index.HTML" = false ∧
    matchesExt "main.py" = true ∧
    matchesExt "index.html" = true ∧
    ∀ (H : Type) (upload : String → Except String H)
      (generate : List (Part H) → Except String String)
      (write : String → String → Except String Unit)
      (walk : List WalkEntry) (prior : Option String) (r f : String),
      matchesExt f = false →
      (r, f) ∉
        uploadAttempts (scan_codebase upload generate write walk prior).trace := by
  refine ⟨by decide, by decide, by decide, by decide, ?_⟩
  intro H upload generate write walk prior r f hm hmem
  rw [uploadAttempts_run] at hmem
  have := matchesExt_of_mem_matchingVisits walk (r, f) hmem
  rw [hm] at this
  cases this

/-- A concrete one-directory walk used to instantiate the theorems:
two allow-listed files and one excluded file. -/
def wWalk : List WalkEntry :=
  [{ root := ".", files := ["a.py", "b.css", "notes.txt"] }]

/-- Upload oracle where every upload succeeds with handle 7. -/
def wUpload : String → Except String Nat := fun _ => Except.ok 7

/-- Upload oracle where only `./b.css` fails. -/
def wUploadMix : String → Except String Nat :=
  fun p => if p = "./b.css" then Except.error "netdown" else Except.ok 7

/-- Upload oracle where every upload fails. -/
def wUploadFail : String → Except String Nat :=
  fun _ => Except.error "netdown"

/-- Generation oracle returning the text `DOC`. -/
def wGen : List (Part Nat) → Except String String := fun _ => Except.ok "DOC"

/-- Generation oracle that fails with message `boom`. -/
def wGenFail : List (Part Nat) → Except String String :=
  fun _ => Except.error "boom"

/-- Write oracle that always succeeds. -/
def wWrite : String → String → Except String Unit := fun _ _ => Except.ok ()

/-- Write oracle that fails with message `disk`. -/
def wWriteFail : String → String → Except String Unit :=
  fun _ _ => Except.error "disk"

/-- Witness for C1 at a concrete run where `a.py` succeeds and `b.css`
fails. -/
theorem C1_witness :
    successfulHandles wUploadMix wWalk ≠ [] ∧
    generateCalls (scan_codebase wUploadMix wGen wWrite wWalk none).trace =
      [contextParts wUploadMix wWalk] :=
  ⟨by decide, C1_single_generation_with_successful_handles wUploadMix wGen
    wWrite wWalk none (by decide)⟩

/-- Witness for C2 at a concrete run where every upload fails. -/
theorem C2_witness :
    successfulHandles wUploadFail wWalk = [] ∧
    (scan_codebase wUploadFail wGen wWrite wWalk (some "old")).readme =
      some "old" ∧
    (scan_codebase wUploadFail wGen wWrite wWalk (some "old")).outcome =
      Outcome.earlyExit := by
  have h := C2_no_success_no_generation_no_output wUploadFail wGen wWrite
    wWalk (some "old") (by decide)
  exact ⟨by decide, h.2.2.1, h.2.2.2.2⟩

/-- Witness for C3 at a concrete run: the attempts are exactly the two
allow-listed visits, and `notes.txt` is never attempted. -/
theorem C3_witness :
    uploadAttempts (scan_codebase wUploadMix wGenFail wWrite wWalk none).trace =
      matchingVisits wWalk ∧
    (".", "notes.txt") ∉
      uploadAttempts (scan_codebase wUploadMix wGenFail wWrite wWalk none).trace := by
  have h := C3_exactly_matching_files_attempted wUploadMix wGenFail wWrite
    wWalk none
  exact ⟨h.1, h.2.2 { root := ".", files := ["a.py", "b.css", "notes.txt"] }
    (by decide) "notes.txt" (by decide) (by decide)⟩

/-- Witness for C4 at a concrete run where the upload of `./b.css`
fails with message `netdown`. -/
theorem C4_witness :
    Event.printLine ("Failed to upload " ++ joinPath "." "b.css" ++ ": " ++
        "netdown")
      ∈ (scan_codebase wUploadMix wGen wWrite wWalk none).trace ∧
    (wUploadMix (joinPath "." "b.css")).toOption = none := by
  have h := C4_upload_failure_logged_and_skipped wUploadMix wGen wWrite wWalk
    none { root := ".", files := ["a.py", "b.css", "notes.txt"] } "b.css"
    "netdown" (by decide) (by decide) (by decide) (by rfl)
  exact ⟨h.1, h.2.2.2⟩

/-- Witness for C5 at a concrete successful run over prior content
`old`. -/
theorem C5_witness :
    (scan_codebase wUpload wGen wWrite wWalk (some "old")).readme =
      some "DOC" :=
  C5_output_completely_overwritten wUpload wGen wWrite wWalk "DOC"
    (by decide) (by rfl) (by rfl) (some "old")

/-- Witness for C6 at a concrete generation oracle answering `DOC`. -/
theorem C6_witness :
    generateCalls (test_gemini wGen).1 =
      [[Part.text "What is the capital of France?"]] ∧
    printLines (test_gemini wGen).1 = ["DOC"] :=
  ⟨(C6_connectivity_check_single_request wGen).1,
   (C6_connectivity_check_single_request wGen).2 "DOC" (by rfl)⟩

/-- Witness for C7 at concrete runs where the generation call fails
with `boom` and where the write fails with `disk`. -/
theorem C7_witness :
    (scan_codebase wUpload wGenFail wWrite wWalk none).outcome =
      Outcome.uncaught "boom" ∧
    (scan_codebase wUpload wGen wWriteFail wWalk none).outcome =
      Outcome.uncaught "disk" := by
  have h1 := C7_generation_and_write_failures_uncaught wUpload wGenFail
    wWrite wWalk none (by decide)
  have h2 := C7_generation_and_write_failures_uncaught wUpload wGen
    wWriteFail wWalk none (by decide)
  exact ⟨(h1.1 "boom" (by rfl)).1, (h2.2 "DOC" "disk" (by rfl) (by rfl)).1⟩

/-- Witness for C8 at a concrete run where every upload fails. -/
theorem C8_witness :
    (scan_codebase wUploadFail wGen wWrite wWalk none).outcome =
      Outcome.earlyExit ∧
    exitCode (scan_codebase wUploadFail wGen wWrite wWalk none).outcome = 0 := by
  have h := C8_early_exit_status_zero wUploadFail wGen wWrite wWalk none
    (by decide)
  exact ⟨h.1, h.2.2.1⟩

/-- Witness for C9 at a concrete run. -/
theorem C9_witness :
    matchesExt "README.md" = false ∧
    (".", "README.md") ∉
      uploadAttempts (scan_codebase wUpload wGen wWrite wWalk none).trace :=
  ⟨C9_readme_never_uploaded.1,
   C9_readme_never_uploaded.2 Nat wUpload wGen wWrite wWalk none "."⟩

/-- Witness for C10 at a concrete run and the concrete file name
`MAIN.PY`. -/
theorem C10_witness :
    matchesExt "MAIN.PY" = false ∧
    (".", "MAIN.PY") ∉
      uploadAttempts (scan_codebase wUpload wGen wWrite wWalk none).trace :=
  ⟨C10_filter_case_sensitive.1,
   C10_filter_case_sensitive.2.2.2.2 Nat wUpload wGen wWrite wWalk none "."
     "MAIN.PY" (by decide)⟩

end ElevenCentral
